import Mathlib

/-!
# Verification of the simple-deploy repository

Two parts are modelled:

* `GitDashboard` — a shallow embedding of `src/main.py`, the repository-status
  dashboard (the only source file present).  The external world (filesystem and
  the `git` subprocess) is modelled by explicit parameters: a `PyPath` record of
  the filesystem facts the code queries, and an `exec` function giving the raw
  output of each git invocation (`none` models a non-zero exit, i.e. a
  `CalledProcessError`).  Exceptions the Python code does not catch are modelled
  by `Except`: an `.error` result means the request handler raises.
* `Deploy` — the swap orchestrator, configuration store, notifier and trigger
  described by the specification.  Their source is not part of `src/`, so every
  definition there is modelled from the spec.
-/

namespace GitDashboard

/-- Filesystem facts about the `Path` value handled by the dashboard code:
its final component (`.name`), its resolved absolute form (`str(.resolve())`),
whether the path itself exists, and whether `path / ".git"` exists. -/
structure PyPath where
  name : String
  resolved : String
  pathExists : Bool
  hasGitDir : Bool

/-- Python truthiness of an optional string: `None` and `""` are falsy. -/
def pyTruthy : Option String → Bool
  | none => false
  | some s => !(s == "")

/-- Python `str.split()` with no separator: split on whitespace runs,
dropping empty pieces. -/
def pySplit (s : String) : List String :=
  (s.split Char.isWhitespace).filter (fun t => !(t == ""))

/-- `run_git(cmd, repo_path)` from `src/main.py`: run the git subprocess and
return its decoded, stripped output; a non-zero exit (`CalledProcessError`)
yields `None`.  The subprocess is modelled by `exec`, which maps the argument
list to `some raw` (exit 0 with output `raw`) or `none` (non-zero exit). -/
def run_git (cmd : List String) (exec : List String → Option String) : Option String :=
  (exec cmd).map String.trim

/-- The complete repository-information record built by `get_git_info`. -/
structure RepoInfo where
  name : String
  path : String
  branch : String
  local_commit : String
  remote_commit : Option String
  ahead : Int
  behind : Int
  last_local_commit_date : Option String
  last_remote_commit_date : Option String
deriving DecidableEq, Repr

/-- `ahead, behind = map(int, ahead_behind.split())`: succeeds exactly when the
output splits into two integer tokens (otherwise Python raises). -/
def parseAheadBehind (s : String) : Option (Int × Int) :=
  match pySplit s with
  | [a, b] =>
    match a.toInt?, b.toInt? with
    | some x, some y => some (x, y)
    | _, _ => none
  | _ => none

/-- `get_git_info(repo_path)` from `src/main.py`.  Returns `.ok none` where the
Python function returns `None`, `.ok (some info)` where it returns the full
record, and `.error` where it would raise (the uncaught `ValueError` from
parsing the ahead/behind counts). -/
def get_git_info (p : PyPath) (exec : List String → Option String) :
    Except String (Option RepoInfo) :=
  if !p.hasGitDir then .ok none
  else
    let branch := run_git ["rev-parse", "--abbrev-ref", "HEAD"] exec
    let local_commit := run_git ["rev-parse", "HEAD"] exec
    let remote_commit :=
      if pyTruthy branch then run_git ["rev-parse", "origin/" ++ branch.getD ""] exec else none
    if !pyTruthy branch || !pyTruthy local_commit then .ok none
    else
      let b := branch.getD ""
      let ahead_behind :=
        run_git ["rev-list", "--left-right", "--count", b ++ "...origin/" ++ b] exec
      let ab : Except String (Int × Int) :=
        if pyTruthy ahead_behind then
          match parseAheadBehind (ahead_behind.getD "") with
          | some v => .ok v
          | none => .error "ValueError"
        else .ok (0, 0)
      match ab with
      | .error e => .error e
      | .ok (ahead, behind) =>
        let last_local_commit_date := run_git ["log", "-1", "--format=%ci", b] exec
        let last_remote_commit_date :=
          if pyTruthy remote_commit then
            run_git ["log", "-1", "--format=%ci", "origin/" ++ b] exec
          else none
        .ok (some
          { name := p.name
            path := p.resolved
            branch := b
            local_commit := local_commit.getD ""
            remote_commit := remote_commit
            ahead := ahead
            behind := behind
            last_local_commit_date := last_local_commit_date
            last_remote_commit_date := last_remote_commit_date })

/-- A value a route returns as JSON: either a complete repository record or an
error record `{"name": ..., "error": ...}`. -/
inductive RepoResp where
  | info (r : RepoInfo)
  | errorRec (name : String) (error : String)
deriving DecidableEq, Repr

/-- The global `git_cache` dictionary, as an association list keyed by the
repository name.  Values have type `RepoResp` so that storing an error record
is expressible (the code never does). -/
abbrev Cache := List (String × RepoResp)

/-- Python dict assignment `d[k] = v`: replace the binding if the key is
present, otherwise append it. -/
def cacheInsert (k : String) (v : RepoResp) : Cache → Cache
  | [] => [(k, v)]
  | (k', v') :: rest => if k' = k then (k, v) :: rest else (k', v') :: cacheInsert k v rest

/-- `update_repo_cache(repo_path)` from `src/main.py`.  The initial
`git fetch` subprocess is wrapped in `try/except: pass` and does not touch the
cache; `exec` models the git state it leaves behind.  On a truthy info record
the cache is updated under `repo_path.name`; otherwise an error record is
returned and the cache is untouched.  An `.error` result models the uncaught
exception from `get_git_info` (the global dict is unchanged in that case). -/
def update_repo_cache (p : PyPath) (exec : List String → Option String) (cache : Cache) :
    Except String (RepoResp × Cache) :=
  match get_git_info p exec with
  | .error e => .error e
  | .ok (some info) => .ok (.info info, cacheInsert p.name (.info info) cache)
  | .ok none => .ok (.errorRec p.name "Could not fetch repo", cache)

/-- The state of the global `git_cache` after a call to `update_repo_cache`:
the returned cache on normal completion, the unchanged dict when the call
raises. -/
def cacheAfterUpdate (p : PyPath) (exec : List String → Option String) (cache : Cache) : Cache :=
  match update_repo_cache p exec cache with
  | .ok (_, c) => c
  | .error _ => cache

/-- Observable behaviour of one `POST /pull_repo` request: whether `git pull`
was invoked, the JSON response, and the cache afterwards. -/
structure PullResult where
  pullInvoked : Bool
  response : RepoResp
  cacheAfter : Cache
deriving DecidableEq, Repr

/-- `pull_repo(repo_path)` from `src/main.py`.  `git pull` runs only under
`repo.exists() and (repo / ".git").exists()`; since `subprocess.run` is called
without `check=True` it never raises `CalledProcessError`, so the except branch
is dead code.  The handler then refreshes the cache and returns its result. -/
def pull_repo (p : PyPath) (exec : List String → Option String) (cache : Cache) :
    Except String PullResult :=
  let doPull := p.pathExists && p.hasGitDir
  match update_repo_cache p exec cache with
  | .error e => .error e
  | .ok (resp, c) => .ok ⟨doPull, resp, c⟩

end GitDashboard

namespace Deploy

/-- Modelled from the spec: the single persisted `DeploymentConfig` record,
field `swap_wait_seconds` (positive integer, default 5). -/
structure DeploymentConfig where
  swap_wait_seconds : Int
deriving DecidableEq, Repr

namespace Configuration

/-- Modelled from the spec: `Configuration.get()` returns the current effective
configuration, creating a default record (`swap_wait_seconds = 5`) on first
access if none exists.  The store state is `none` when no record exists. -/
def get : Option DeploymentConfig → DeploymentConfig × Option DeploymentConfig
  | none => (⟨5⟩, some ⟨5⟩)
  | some c => (c, some c)

/-- Modelled from the spec: `Configuration.set(v)` validates that `v` is a
positive integer; on success it persists and returns the updated record, on
failure it reports a validation error and leaves the store unchanged. -/
def set (v : Int) (s : Option DeploymentConfig) :
    Except String DeploymentConfig × Option DeploymentConfig :=
  if 0 < v then (.ok ⟨v⟩, some ⟨v⟩)
  else (.error "ValidationError: swap_wait_seconds must be a positive integer", s)

end Configuration

/-- Strip a `:tag` suffix: the characters before the first `':'`. -/
def stripTagChars (l : List Char) : List Char :=
  l.takeWhile (fun c => !(c == ':'))

/-- The path segment after the final `'/'`: the longest `'/'`-free suffix. -/
def lastSegChars (l : List Char) : List Char :=
  (l.reverse.takeWhile (fun c => !(c == '/'))).reverse

/-- Modelled from the spec: derived attribute `baseName` of an image
reference — the path segment after the final `/`, with any `:tag` suffix
stripped. -/
def baseName (s : String) : String :=
  String.mk (stripTagChars (lastSegChars s.data))

/-- Modelled from the spec: a trigger request `{secret, imageReference}`. -/
structure TriggerRequest where
  secret : String
  imageReference : String

/-- Modelled from the spec: the trigger's configuration — the shared secret and
the whitelist of allowed image-reference prefixes. -/
structure TriggerConfig where
  sharedSecret : String
  whitelist : List String

/-- Outcome reported to the trigger caller. -/
inductive TriggerResult where
  | accepted
  | authenticationError
  | authorizationError
deriving DecidableEq, Repr

/-- Modelled from the spec: the Deployment Trigger.  It validates the secret,
then the whitelist, and only on success schedules one orchestration run for the
image reference.  The second component is the list of scheduled runs. -/
def handleTrigger (cfg : TriggerConfig) (req : TriggerRequest) :
    TriggerResult × List String :=
  if !(req.secret == cfg.sharedSecret) then (.authenticationError, [])
  else if cfg.whitelist.any (fun p => p.isPrefixOf req.imageReference) then
    (.accepted, [req.imageReference])
  else (.authorizationError, [])

/-- Modelled from the spec: an external `ContainerInstance`, identified by a
runtime-assigned id and a human name, with a running flag. -/
structure ContainerInstance where
  instId : Nat
  name : String
  running : Bool
deriving DecidableEq, Repr

/-- The external runtime's state: the set of existing instances. -/
abbrev RuntimeState := List ContainerInstance

/-- Modelled from the spec: every Runtime Client call may fail independently;
this record injects those environment-caused failures (unreachable registry,
ports already bound, a stuck process, ...) into one run. -/
structure FaultModel where
  pullFails : Bool
  runDetachedFails : Bool
  stopFails : Nat → Bool
  removeFails : Nat → Bool
  renameFails : Bool

/-- Diagnostic text of a failed `pull`. -/
def pullDiag : String := "pull: image reference unresolvable or registry unreachable"

/-- Diagnostic text of a failed `runDetached`. -/
def runDetachedDiag : String := "runDetached: name already in use or ports already bound"

/-- Diagnostic text of a failed `stop`. -/
def stopDiag : String := "stop: no such instance or runtime error"

/-- Diagnostic text of a failed `remove`. -/
def removeDiag : String := "remove: instance still running or runtime error"

/-- Diagnostic text of a failed `rename`. -/
def renameDiag : String := "rename: new name already taken"

/-- Does some existing instance already carry this name? -/
def nameInUse (s : RuntimeState) (n : String) : Bool :=
  s.any (fun i => i.name == n)

/-- The runtime-assigned id of the next started instance: fresh with respect
to every existing instance. -/
def freshId (s : RuntimeState) : Nat :=
  s.foldr (fun i m => max i.instId m) 0 + 1

/-- Modelled from the spec: `pull(imageReference)` — fetch the image; no
runtime-state effect; fails if the reference is unresolvable or the registry
unreachable. -/
def pull (fm : FaultModel) (_img : String) : Except String Unit :=
  if fm.pullFails then .error pullDiag else .ok ()

/-- Modelled from the spec: `runDetached(imageReference, name, ...)` — start a
new instance under the given name; fails if the name is already in use or the
requested ports are already bound.  Returns the new instance id. -/
def runDetached (fm : FaultModel) (_img n : String) (s : RuntimeState) :
    Except String (Nat × RuntimeState) :=
  if fm.runDetachedFails || nameInUse s n then .error runDetachedDiag
  else .ok (freshId s, ⟨freshId s, n, true⟩ :: s)

/-- Modelled from the spec: `listByName(name)` — the ids of all instances
currently holding the name. -/
def listByName (s : RuntimeState) (n : String) : List Nat :=
  (s.filter (fun i => i.name == n)).map ContainerInstance.instId

/-- Modelled from the spec: `stop(instanceId)` — terminate an instance; fails
on a runtime error or when no such instance exists. -/
def stop (fm : FaultModel) (i : Nat) (s : RuntimeState) : Except String RuntimeState :=
  if fm.stopFails i || !(s.any (fun j => j.instId == i)) then .error stopDiag
  else .ok (s.map (fun j => if j.instId == i then { j with running := false } else j))

/-- Modelled from the spec: `remove(instanceId)` — delete an instance; fails if
it is still running (callers must `stop` first). -/
def remove (fm : FaultModel) (i : Nat) (s : RuntimeState) : Except String RuntimeState :=
  if fm.removeFails i || s.any (fun j => j.instId == i && j.running) then .error removeDiag
  else .ok (s.filter (fun j => !(j.instId == i)))

/-- Modelled from the spec: `rename(instanceId, newName)` — fails if `newName`
is already taken by a different instance. -/
def rename (fm : FaultModel) (i : Nat) (newName : String) (s : RuntimeState) :
    Except String RuntimeState :=
  if fm.renameFails || s.any (fun j => j.name == newName && !(j.instId == i)) then
    .error renameDiag
  else .ok (s.map (fun j => if j.instId == i then { j with name := newName } else j))

/-- Retire one stale instance: `stop` then `remove`, in that order, continuing
even if either call fails (partial failure is recorded, not fatal). -/
def retireOne (fm : FaultModel) (s : RuntimeState) (i : Nat) : RuntimeState :=
  let s1 := match stop fm i s with
    | .ok t => t
    | .error _ => s
  match remove fm i s1 with
  | .ok t => t
  | .error _ => s1

/-- Modelled from the spec: the RetiringOld phase body — for each enumerated
instance, `stop` then `remove`, continuing to the next candidate on failure. -/
def retireOld (fm : FaultModel) (ids : List Nat) (s : RuntimeState) : RuntimeState :=
  ids.foldl (retireOne fm) s

/-- The orchestrator's phases. -/
inductive Phase where
  | Pulling
  | Starting
  | Stabilizing
  | RetiringOld
  | Promoting
deriving DecidableEq, Repr

/-- Outcome of one orchestration run. -/
inductive Outcome where
  | Completed
  | Failed (p : Phase)
deriving DecidableEq, Repr

/-- Observable result of one orchestration run: its outcome, the external
runtime state it leaves behind, and the messages sent to the Notifier. -/
structure RunResult where
  outcome : Outcome
  runtime : RuntimeState
  notifications : List String
deriving DecidableEq, Repr

/-- A notification carries the image reference and the failing phase's
diagnostic text. -/
def notifyMsg (img diag : String) : String :=
  "deployment of " ++ img ++ " failed: " ++ diag

/-- Modelled from the spec: one run of the Swap Orchestrator state machine,
`Pulling → Starting → Stabilizing → RetiringOld → Promoting → Completed`.
`swapWaitSeconds` is read from the Configuration Store at run start; the
Stabilizing suspension has no runtime-state effect and cannot fail.
`tmpName` is the `temporaryInstanceName` computed in the Starting phase.
Any `Failed(phase)` transition sends exactly one notification; there is no
rollback or cleanup of the temporary instance. -/
def orchestrate (fm : FaultModel) (_swapWaitSeconds : Nat) (img tmpName : String)
    (s : RuntimeState) : RunResult :=
  match pull fm img with
  | .error d => ⟨.Failed .Pulling, s, [notifyMsg img d]⟩
  | .ok _ =>
    match runDetached fm img tmpName s with
    | .error d => ⟨.Failed .Starting, s, [notifyMsg img d]⟩
    | .ok (newId, s1) =>
      match rename fm newId (baseName img)
          (retireOld fm (listByName s1 (baseName img)) s1) with
      | .error d =>
        ⟨.Failed .Promoting, retireOld fm (listByName s1 (baseName img)) s1,
          [notifyMsg img d]⟩
      | .ok s3 => ⟨.Completed, s3, []⟩

/-- A fault model in which every Runtime Client call succeeds. -/
def noFaults : FaultModel :=
  ⟨false, false, fun _ => false, fun _ => false, false⟩

/-- A fault model in which only `stop` of instance 1 fails, so RetiringOld
leaves instance 1 in place and the later `rename` fails endogenously because
the production name is still occupied. -/
def stopOneFault : FaultModel :=
  ⟨false, false, fun i => i == 1, fun _ => false, false⟩

/-- A fault model in which only `runDetached` fails. -/
def runDetachedOnlyFault : FaultModel :=
  ⟨false, true, fun _ => false, fun _ => false, false⟩

/-- A concrete runtime state: a production instance and an unrelated one. -/
def sampleState : RuntimeState :=
  [⟨1, "app", true⟩, ⟨2, "db", true⟩]

end Deploy

namespace GitDashboard

/-- A git environment in which every invocation succeeds with output `" ok "`. -/
def execAllOk : List String → Option String := fun _ => some " ok "

/-- A git environment in which every invocation exits non-zero. -/
def execAllFail : List String → Option String := fun _ => none

/-- A git environment mimicking a healthy repository on branch `main`,
one commit ahead of and two behind its remote. -/
def execRepo : List String → Option String := fun cmd =>
  if cmd = ["rev-list", "--left-right", "--count", "main...origin/main"] then some " 1 2 "
  else some "main"

/-- A directory that exists but is not a git repository. -/
def pathNoGit : PyPath := ⟨"plain", "/srv/plain", true, false⟩

/-- A directory that is a git repository. -/
def pathRepo : PyPath := ⟨"repo1", "/srv/repo1", true, true⟩

/-- A submitted path that does not exist at all. -/
def pathMissing : PyPath := ⟨"nope", "/srv/nope", false, false⟩

end GitDashboard

/-! ## Theorems -/

namespace Deploy

theorem takeWhile_append_of_all {α : Type} (p : α → Bool) (l : List α) (c : α) (r : List α)
    (hl : ∀ x ∈ l, p x = true) (hc : p c = false) :
    (l ++ c :: r).takeWhile p = l := by
  induction l with
  | nil => simp [List.takeWhile_cons, hc]
  | cons a as ih =>
    have ha := hl a (by simp)
    simp only [List.cons_append, List.takeWhile_cons, ha, if_true]
    exact congrArg (a :: ·) (ih fun x hx => hl x (by simp [hx]))

theorem lastSegChars_append (x y : List Char) (hy : ('/' : Char) ∉ y) :
    lastSegChars (x ++ '/' :: y) = y := by
  unfold lastSegChars
  have hsplit : x ++ '/' :: y = (x ++ ['/']) ++ y := by simp
  rw [hsplit, List.reverse_append, List.reverse_append]
  have : (['/'].reverse ++ x.reverse) = '/' :: x.reverse := by simp
  rw [this, takeWhile_append_of_all _ y.reverse '/' x.reverse
    (fun c hc => by
      have : c ∈ y := List.mem_reverse.mp hc
      have hne : c ≠ '/' := fun h => hy (h ▸ this)
      simp [hne])
    (by simp), List.reverse_reverse]

theorem lastSegChars_of_no_slash (y : List Char) (hy : ('/' : Char) ∉ y) :
    lastSegChars y = y := by
  unfold lastSegChars
  rw [List.takeWhile_eq_self_iff.mpr, List.reverse_reverse]
  intro c hc
  have : c ∈ y := List.mem_reverse.mp hc
  have hne : c ≠ '/' := fun h => hy (h ▸ this)
  simp [hne]

theorem stripTagChars_append (nm tag : List Char) (h : (':' : Char) ∉ nm) :
    stripTagChars (nm ++ ':' :: tag) = nm := by
  unfold stripTagChars
  exact takeWhile_append_of_all _ nm ':' tag
    (fun c hc => by
      have hne : c ≠ ':' := fun he => h (he ▸ hc)
      simp [hne])
    (by simp)

theorem stripTagChars_of_no_colon (nm : List Char) (h : (':' : Char) ∉ nm) :
    stripTagChars nm = nm := by
  unfold stripTagChars
  rw [List.takeWhile_eq_self_iff.mpr]
  intro c hc
  have hne : c ≠ ':' := fun he => h (he ▸ hc)
  simp [hne]

/-- C5: for an image reference of the form `a ++ "/" ++ nm ++ ":" ++ tag`
(or with no tag), where `nm` is the final path segment, the derived `baseName`
is `nm`: the path segment after the final `/`, with any `:tag` suffix
stripped. -/
theorem baseName_is_last_segment_without_tag (a nm tag : String)
    (h1 : ('/' : Char) ∉ nm.data) (h2 : (':' : Char) ∉ nm.data)
    (h3 : ('/' : Char) ∉ tag.data) :
    baseName (a ++ "/" ++ nm ++ ":" ++ tag) = nm ∧ baseName (a ++ "/" ++ nm) = nm := by
  constructor
  · have hdata : (a ++ "/" ++ nm ++ ":" ++ tag).data
        = a.data ++ '/' :: (nm.data ++ ':' :: tag.data) := by
      simp [String.data_append]
    have hy : ('/' : Char) ∉ nm.data ++ ':' :: tag.data := by
      intro hmem
      rcases List.mem_append.mp hmem with h | h
      · exact h1 h
      · rcases List.mem_cons.mp h with h | h
        · exact absurd h (by decide)
        · exact h3 h
    unfold baseName
    rw [hdata, lastSegChars_append _ _ hy, stripTagChars_append _ _ h2]
  · have hdata : (a ++ "/" ++ nm).data = a.data ++ '/' :: nm.data := by
      simp [String.data_append]
    unfold baseName
    rw [hdata, lastSegChars_append _ _ h1, stripTagChars_of_no_colon _ h2]

/-- Witness for C5 at the spec's concrete example. -/
theorem baseName_is_last_segment_without_tag_witness :
    baseName "registry.example.com/team/app:v2" = "app" := by
  have h := baseName_is_last_segment_without_tag "registry.example.com/team" "app" "v2"
    (by decide) (by decide) (by decide)
  exact h.1

/-- C2: a trigger request whose secret does not match the configured shared
value is rejected with an authentication error and schedules no orchestration
run, whatever the image reference. -/
theorem wrong_secret_schedules_nothing (cfg : TriggerConfig) (req : TriggerRequest)
    (h : req.secret ≠ cfg.sharedSecret) :
    handleTrigger cfg req = (.authenticationError, []) := by
  unfold handleTrigger
  rw [if_pos]
  simp [h]

/-- Witness for C2: wrong secret, whitelisted image. -/
theorem wrong_secret_schedules_nothing_witness :
    handleTrigger ⟨"abc", ["registry.example.com/team/"]⟩
      ⟨"wrong", "registry.example.com/team/app:v2"⟩ = (.authenticationError, []) :=
  wrong_secret_schedules_nothing _ _ (by decide)

/-- C3: `Configuration.set` of a positive value followed by `Configuration.get`
reads back exactly that value; a non-positive value is rejected with a
validation error and leaves the stored configuration (hence what `get`
returns) unchanged. -/
theorem config_set_then_get (s : Option DeploymentConfig) (v : Int) :
    (0 < v →
      (Configuration.get (Configuration.set v s).2).1.swap_wait_seconds = v) ∧
    (v ≤ 0 →
      (∃ e, (Configuration.set v s).1 = .error e) ∧
      (Configuration.set v s).2 = s ∧
      Configuration.get (Configuration.set v s).2 = Configuration.get s) := by
  constructor
  · intro hv
    simp [Configuration.set, Configuration.get, hv]
  · intro hv
    have hnot : ¬ 0 < v := by omega
    refine ⟨⟨"ValidationError: swap_wait_seconds must be a positive integer", ?_⟩, ?_, ?_⟩ <;>
      simp [Configuration.set, hnot]

/-- Witness for C3: set 7 then get reads 7; set 0 is rejected and the store
keeps its prior record. -/
theorem config_set_then_get_witness :
    (Configuration.get (Configuration.set 7 none).2).1.swap_wait_seconds = 7 ∧
    (Configuration.set 0 (some ⟨5⟩)).2 = some ⟨5⟩ :=
  ⟨(config_set_then_get none 7).1 (by decide),
   ((config_set_then_get (some ⟨5⟩) 0).2 (by decide)).2.1⟩

/-- C4: `Configuration.get` returns the current effective record — creating the
default record (`swap_wait_seconds = 5`) on first access — and after any `get`
exactly one effective record exists, namely the returned one. -/
theorem config_get_effective :
    (Configuration.get none).1 = ⟨5⟩ ∧
    (∀ c : DeploymentConfig, Configuration.get (some c) = (c, some c)) ∧
    (∀ s : Option DeploymentConfig,
      (Configuration.get s).2 = some (Configuration.get s).1) := by
  refine ⟨rfl, fun c => rfl, fun s => ?_⟩
  cases s <;> rfl

end Deploy

namespace GitDashboard

theorem get_git_info_name (p : PyPath) (exec : List String → Option String) (r : RepoInfo)
    (h : get_git_info p exec = .ok (some r)) : r.name = p.name := by
  unfold get_git_info at h
  split at h
  · simp at h
  · dsimp only at h
    split at h
    · simp at h
    · split at h
      · simp at h
      · simp only [Except.ok.injEq, Option.some.injEq] at h
        rw [← h]

theorem mem_cacheInsert (k : String) (v : RepoResp) (c : Cache) (e : String × RepoResp)
    (he : e ∈ cacheInsert k v c) : e = (k, v) ∨ e ∈ c := by
  induction c with
  | nil =>
    simp only [cacheInsert] at he
    rcases List.mem_singleton.mp he with rfl
    exact Or.inl rfl
  | cons a rest ih =>
    simp only [cacheInsert] at he
    split at he
    · rcases List.mem_cons.mp he with rfl | h
      · exact Or.inl rfl
      · exact Or.inr (List.mem_cons.mpr (Or.inr h))
    · rcases List.mem_cons.mp he with rfl | h
      · exact Or.inr (List.mem_cons.mpr (Or.inl rfl))
      · rcases ih h with h | h
        · exact Or.inl h
        · exact Or.inr (List.mem_cons.mpr (Or.inr h))

theorem lookup_cacheInsert_isSome (k k' : String) (v : RepoResp) (c : Cache)
    (h : (List.lookup k' c).isSome) : (List.lookup k' (cacheInsert k v c)).isSome := by
  induction c with
  | nil => simp [List.lookup] at h
  | cons a rest ih =>
    obtain ⟨ka, va⟩ := a
    simp only [cacheInsert]
    split
    · rename_i hka
      subst hka
      simp only [List.lookup] at h ⊢
      by_cases hk : k' == ka
      · simp [hk]
      · simp only [hk] at h ⊢
        simpa using h
    · simp only [List.lookup] at h ⊢
      by_cases hk : k' == ka
      · simp [hk]
      · simp only [hk] at h ⊢
        exact ih h

/-- C8: the `git_cache` invariant.  Starting from a cache whose every entry is a
complete repository-info record stored under the repository directory's name,
one `update_repo_cache` call preserves that shape — it never stores an error
record — and never removes an entry (every key present before is present
after), whatever the filesystem and git environment do. -/
theorem git_cache_entries_complete (p : PyPath) (exec : List String → Option String)
    (cache : Cache)
    (hinv : ∀ e ∈ cache, ∃ r : RepoInfo, e.2 = RepoResp.info r ∧ r.name = e.1) :
    (∀ e ∈ cacheAfterUpdate p exec cache,
      ∃ r : RepoInfo, e.2 = RepoResp.info r ∧ r.name = e.1) ∧
    (∀ k, (List.lookup k cache).isSome →
      (List.lookup k (cacheAfterUpdate p exec cache)).isSome) := by
  unfold cacheAfterUpdate update_repo_cache
  cases hg : get_git_info p exec with
  | error e => exact ⟨hinv, fun k hk => hk⟩
  | ok o =>
    cases o with
    | none => exact ⟨hinv, fun k hk => hk⟩
    | some info =>
      refine ⟨fun e he => ?_, fun k hk => lookup_cacheInsert_isSome _ _ _ _ hk⟩
      rcases mem_cacheInsert _ _ _ _ he with rfl | h
      · exact ⟨info, rfl, get_git_info_name p exec info hg⟩
      · exact hinv e h

/-- Witness for C8: one update of the empty cache in a healthy environment. -/
theorem git_cache_entries_complete_witness :
    (∀ e ∈ cacheAfterUpdate pathRepo execRepo [],
      ∃ r : RepoInfo, e.2 = RepoResp.info r ∧ r.name = e.1) ∧
    (∀ k, (List.lookup k ([] : Cache)).isSome →
      (List.lookup k (cacheAfterUpdate pathRepo execRepo [])).isSome) :=
  git_cache_entries_complete pathRepo execRepo [] (by simp)

/-- C9: `run_git` returns the stripped output on success and `None` exactly
when the git subprocess exits non-zero; consequently `get_git_info` returns
`None` when the path has no `.git` directory, or when the branch or the local
commit cannot be determined. -/
theorem run_git_failure_yields_none (cmd : List String)
    (exec : List String → Option String) (p : PyPath) (raw : String) :
    (exec cmd = some raw → run_git cmd exec = some raw.trim) ∧
    (exec cmd = none → run_git cmd exec = none) ∧
    (p.hasGitDir = false → get_git_info p exec = .ok none) ∧
    (p.hasGitDir = true →
      run_git ["rev-parse", "--abbrev-ref", "HEAD"] exec = none ∨
      run_git ["rev-parse", "HEAD"] exec = none →
      get_git_info p exec = .ok none) := by
  refine ⟨fun h => by simp [run_git, h], fun h => by simp [run_git, h],
    fun h => by simp [get_git_info, h], fun hgit hcase => ?_⟩
  unfold get_git_info
  rw [hgit]
  rcases hcase with h | h <;> simp [h, pyTruthy]

/-- Witness for C9: a succeeding call, a failing call, a non-repository path,
and a repository where every git call fails. -/
theorem run_git_failure_yields_none_witness :
    run_git ["status"] execAllOk = some (" ok ".trim) ∧
    run_git ["status"] execAllFail = none ∧
    get_git_info pathNoGit execAllOk = .ok none ∧
    get_git_info pathRepo execAllFail = .ok none := by
  refine ⟨?_, ?_, ?_, ?_⟩
  · exact (run_git_failure_yields_none ["status"] execAllOk pathRepo " ok ").1 rfl
  · exact (run_git_failure_yields_none ["status"] execAllFail pathRepo " ok ").2.1 rfl
  · exact (run_git_failure_yields_none ["status"] execAllOk pathNoGit " ok ").2.2.1 rfl
  · exact (run_git_failure_yields_none ["status"] execAllFail pathRepo " ok ").2.2.2 rfl
      (Or.inl rfl)

/-- C10: `pull_repo` invokes `git pull` only for a submitted path that exists
and contains a `.git` directory.  For every other path (under the filesystem
coherence fact that a path with a `.git` subdirectory itself exists) the pull
is skipped and the handler still returns a JSON response: the cache-refresh
result, which is the error record since the path is not a repository. -/
theorem pull_repo_skips_non_repos (p : PyPath) (exec : List String → Option String)
    (cache : Cache)
    (hfs : p.hasGitDir = true → p.pathExists = true)
    (h : ¬(p.pathExists = true ∧ p.hasGitDir = true)) :
    pull_repo p exec cache =
      .ok ⟨false, .errorRec p.name "Could not fetch repo", cache⟩ := by
  have hgd : p.hasGitDir = false := by
    cases hcase : p.hasGitDir
    · rfl
    · exact absurd ⟨hfs hcase, hcase⟩ h
  simp [pull_repo, update_repo_cache, get_git_info, hgd]

/-- Witness for C10: a submitted path that does not exist. -/
theorem pull_repo_skips_non_repos_witness :
    pull_repo pathMissing execAllOk [] =
      .ok ⟨false, .errorRec "nope" "Could not fetch repo", []⟩ :=
  pull_repo_skips_non_repos pathMissing execAllOk [] (by simp [pathMissing])
    (by simp [pathMissing])

end GitDashboard

namespace Deploy

/-- C6: when `pull` succeeds but `runDetached` fails in the Starting phase, the
run ends in `Failed(Starting)`, the Notifier receives exactly one message
(carrying the image reference and the phase's diagnostic text), and the
external runtime state is left exactly as it was — no pre-existing instance is
stopped, removed or renamed. -/
theorem starting_failure_touches_nothing (fm : FaultModel) (w : Nat)
    (img tmpName : String) (s : RuntimeState)
    (hpull : fm.pullFails = false)
    (hrun : fm.runDetachedFails = true ∨ nameInUse s tmpName = true) :
    orchestrate fm w img tmpName s =
      ⟨.Failed .Starting, s, [notifyMsg img runDetachedDiag]⟩ := by
  have hp : pull fm img = .ok () := by simp [pull, hpull]
  have hr : runDetached fm img tmpName s = .error runDetachedDiag := by
    unfold runDetached
    rcases hrun with h | h <;> simp [h]
  simp only [orchestrate, hp, hr]

/-- Witness for C6: a port conflict (injected `runDetached` failure) over an
existing production instance. -/
theorem starting_failure_touches_nothing_witness :
    orchestrate runDetachedOnlyFault 5 "registry.example.com/team/app:v2"
      "app_tmp_1" sampleState =
      ⟨.Failed .Starting, sampleState,
        [notifyMsg "registry.example.com/team/app:v2" runDetachedDiag]⟩ :=
  starting_failure_touches_nothing runDetachedOnlyFault 5 _ _ _ rfl (Or.inl rfl)

end Deploy

namespace Deploy

theorem stop_ok_eq (fm : FaultModel) (i : Nat) (st t : RuntimeState)
    (h : stop fm i st = .ok t) :
    t = st.map (fun j => if j.instId == i then { j with running := false } else j) := by
  unfold stop at h
  split at h
  · cases h
  · cases h
    rfl

theorem remove_ok_eq (fm : FaultModel) (i : Nat) (st t : RuntimeState)
    (h : remove fm i st = .ok t) :
    t = st.filter (fun j => !(j.instId == i)) := by
  unfold remove at h
  split at h
  · cases h
  · cases h
    rfl

theorem retireOne_preserves (fm : FaultModel) (st : RuntimeState) (i : Nat)
    (j : ContainerInstance) (hj : j ∈ st) (hne : j.instId ≠ i) :
    j ∈ retireOne fm st i := by
  unfold retireOne
  dsimp only
  have hbeq : (j.instId == i) = false := by simp [hne]
  have hj1 : j ∈ (match stop fm i st with | .ok t => t | .error _ => st) := by
    cases h : stop fm i st with
    | ok t =>
      show j ∈ t
      rw [stop_ok_eq fm i st t h]
      exact List.mem_map.mpr ⟨j, hj, by simp [hbeq]⟩
    | error e => exact hj
  cases h : remove fm i (match stop fm i st with | .ok t => t | .error _ => st) with
  | ok t =>
    show j ∈ t
    rw [remove_ok_eq fm i _ t h]
    exact List.mem_filter.mpr ⟨hj1, by simp [hbeq]⟩
  | error e => exact hj1

theorem retireOld_preserves (fm : FaultModel) (ids : List Nat) (st : RuntimeState)
    (j : ContainerInstance) (hj : j ∈ st) (hid : j.instId ∉ ids) :
    j ∈ retireOld fm ids st := by
  induction ids generalizing st with
  | nil => exact hj
  | cons i rest ih =>
    have hne : j.instId ≠ i := fun h => hid (List.mem_cons.mpr (Or.inl h))
    have hrest : j.instId ∉ rest := fun h => hid (List.mem_cons.mpr (Or.inr h))
    exact ih (retireOne fm st i) (retireOne_preserves fm st i j hj hne) hrest

theorem instId_lt_freshId (s : RuntimeState) (j : ContainerInstance) (hj : j ∈ s) :
    j.instId < freshId s := by
  unfold freshId
  have : j.instId ≤ s.foldr (fun i m => max i.instId m) 0 := by
    induction s with
    | nil => cases hj
    | cons a as ih =>
      rw [List.foldr_cons]
      rcases List.mem_cons.mp hj with h | h
      · rw [h]
        exact Nat.le_max_left _ _
      · exact le_trans (ih h) (Nat.le_max_right _ _)
  omega

theorem freshId_not_mem_listByName (s : RuntimeState) (n : String) :
    freshId s ∉ listByName s n := by
  intro h
  unfold listByName at h
  rcases List.mem_map.mp h with ⟨j, hj, hid⟩
  have hlt := instId_lt_freshId s j (List.mem_filter.mp hj).1
  omega

theorem listByName_cons_of_ne (a : ContainerInstance) (s : RuntimeState) (n : String)
    (h : a.name ≠ n) : listByName (a :: s) n = listByName s n := by
  unfold listByName
  rw [List.filter_cons_of_neg]
  simp [h]

end Deploy

namespace Deploy

/-- C7: for every run that reaches Promoting (pull and runDetached succeed)
in which the `rename` call there fails — whether through an injected fault or
endogenously because the production name is still occupied after RetiringOld —
the run ends in `Failed(Promoting)`, the newly started instance is still
present, running, and named with its temporary identity (not removed, not
renamed, not rolled back), and the Notifier receives exactly one message with
the image reference and the diagnostic. -/
theorem promoting_failure_keeps_temporary (fm : FaultModel) (w : Nat)
    (img tmpName : String) (s : RuntimeState) (d : String)
    (hpull : fm.pullFails = false)
    (hrun : fm.runDetachedFails = false)
    (hfree : nameInUse s tmpName = false)
    (hneq : tmpName ≠ baseName img)
    (hrenfail : rename fm (freshId s) (baseName img)
      (retireOld fm (listByName (⟨freshId s, tmpName, true⟩ :: s) (baseName img))
        (⟨freshId s, tmpName, true⟩ :: s)) = .error d) :
    (orchestrate fm w img tmpName s).outcome = .Failed .Promoting ∧
    (⟨freshId s, tmpName, true⟩ : ContainerInstance) ∈
      (orchestrate fm w img tmpName s).runtime ∧
    (orchestrate fm w img tmpName s).notifications = [notifyMsg img d] := by
  have hp : pull fm img = .ok () := by simp [pull, hpull]
  have hr : runDetached fm img tmpName s =
      .ok (freshId s, ⟨freshId s, tmpName, true⟩ :: s) := by
    simp [runDetached, hrun, hfree]
  have heq : orchestrate fm w img tmpName s =
      ⟨.Failed .Promoting,
        retireOld fm (listByName (⟨freshId s, tmpName, true⟩ :: s) (baseName img))
          (⟨freshId s, tmpName, true⟩ :: s),
        [notifyMsg img d]⟩ := by
    simp only [orchestrate, hp, hr, hrenfail]
  rw [heq]
  refine ⟨rfl, ?_, rfl⟩
  rw [listByName_cons_of_ne _ s _ hneq]
  exact retireOld_preserves fm _ _ _ (List.mem_cons.mpr (Or.inl rfl))
    (freshId_not_mem_listByName s (baseName img))

/-- Witness for C7, exercising the endogenous failure cause: `stop` of the
old production instance fails, RetiringOld leaves it holding `app`, so
`rename` fails with no rename fault injected; the temporary instance survives
under its temporary name. -/
theorem promoting_failure_keeps_temporary_witness :
    (orchestrate stopOneFault 5 "registry.example.com/team/app:v2" "app_tmp_1"
      sampleState).outcome = .Failed .Promoting ∧
    (⟨freshId sampleState, "app_tmp_1", true⟩ : ContainerInstance) ∈
      (orchestrate stopOneFault 5 "registry.example.com/team/app:v2" "app_tmp_1"
        sampleState).runtime ∧
    (orchestrate stopOneFault 5 "registry.example.com/team/app:v2" "app_tmp_1"
      sampleState).notifications =
      [notifyMsg "registry.example.com/team/app:v2" renameDiag] :=
  promoting_failure_keeps_temporary stopOneFault 5 _ _ _ renameDiag rfl rfl
    (by decide) (by decide) (by rfl)

end Deploy

namespace Deploy

theorem contains_eq_false_of_not_mem {l : List Nat} {x : Nat} (h : x ∉ l) :
    l.contains x = false := by
  simpa using h

theorem contains_eq_true_of_mem {l : List Nat} {x : Nat} (h : x ∈ l) :
    l.contains x = true := by
  simpa using h

theorem filter_of_map_invariant (f : ContainerInstance → ContainerInstance)
    (p : ContainerInstance → Bool) (s : RuntimeState)
    (h1 : ∀ j, p (f j) = p j) (h2 : ∀ j, p j = true → f j = j) :
    (s.map f).filter p = s.filter p := by
  induction s with
  | nil => rfl
  | cons a as ih =>
    rw [List.map_cons, List.filter_cons, List.filter_cons, h1 a]
    by_cases hp : p a = true
    · simp [hp, h2 a hp, ih]
    · simp only [Bool.not_eq_true] at hp
      simp [hp, ih]

theorem retireOne_eq_filter (fm : FaultModel) (s : RuntimeState) (i : Nat)
    (hstop : fm.stopFails i = false) (hrem : fm.removeFails i = false) :
    retireOne fm s i = s.filter (fun j => !(j.instId == i)) := by
  unfold retireOne
  dsimp only
  by_cases hp : s.any (fun j => j.instId == i) = true
  · have hs : stop fm i s =
        .ok (s.map (fun j => if j.instId == i then { j with running := false } else j)) := by
      unfold stop
      rw [hstop, hp]
      rfl
    rw [hs]
    have hnone : (s.map (fun j => if j.instId == i then { j with running := false } else j)).any
        (fun j => j.instId == i && j.running) = false := by
      refine List.any_eq_false.mpr fun j hj => ?_
      rcases List.mem_map.mp hj with ⟨k, hk, rfl⟩
      by_cases hki : (k.instId == i) = true
      · simp [hki]
      · simp only [Bool.not_eq_true] at hki
        simp [hki]
    have hrm : remove fm i
        (s.map (fun j => if j.instId == i then { j with running := false } else j)) =
        .ok ((s.map (fun j => if j.instId == i then { j with running := false } else j)).filter
          (fun j => !(j.instId == i))) := by
      unfold remove
      rw [hrem, hnone]
      rfl
    rw [hrm]
    exact filter_of_map_invariant _ _ s
      (fun j => by by_cases hji : (j.instId == i) = true <;> simp [hji])
      (fun j hj => by
        have hf : (j.instId == i) = false := by simpa using hj
        simp [hf])
  · have hp' : s.any (fun j => j.instId == i) = false := Bool.eq_false_iff.mpr hp
    have hpmem := List.any_eq_false.mp hp'
    have hs : stop fm i s = .error stopDiag := by
      unfold stop
      rw [hstop, hp']
      rfl
    rw [hs]
    have hanyr : s.any (fun j => j.instId == i && j.running) = false := by
      refine List.any_eq_false.mpr fun j hj => ?_
      have := hpmem j hj
      simp at this
      simp [this]
    have hrm : remove fm i s = .ok (s.filter (fun j => !(j.instId == i))) := by
      unfold remove
      rw [hrem, hanyr]
      rfl
    rw [hrm]

theorem retireOld_eq_filter (fm : FaultModel) (ids : List Nat) (s : RuntimeState)
    (hstop : ∀ i, fm.stopFails i = false) (hrem : ∀ i, fm.removeFails i = false) :
    retireOld fm ids s = s.filter (fun j => !(ids.contains j.instId)) := by
  induction ids generalizing s with
  | nil =>
    show s = _
    simp
  | cons i rest ih =>
    show retireOld fm rest (retireOne fm s i) = _
    rw [retireOne_eq_filter fm s i (hstop i) (hrem i), ih, List.filter_filter]
    congr 1
    funext j
    rw [List.contains_cons, Bool.not_or, Bool.and_comm]

end Deploy

namespace Deploy

/-- C1: a run in which no Runtime Client call fails — no injected faults, the
temporary name fresh and distinct from the base name (as its construction
guarantees), instance ids distinct — completes, and the final runtime state
holds exactly one instance named `baseName img` (the newly started one, still
running) and zero instances whose name matches the temporary name. -/
theorem successful_run_unique_base (fm : FaultModel) (w : Nat)
    (img tmpName : String) (s : RuntimeState)
    (hpull : fm.pullFails = false)
    (hrun : fm.runDetachedFails = false)
    (hstop : ∀ i, fm.stopFails i = false)
    (hrem : ∀ i, fm.removeFails i = false)
    (hren : fm.renameFails = false)
    (hfree : nameInUse s tmpName = false)
    (hneq : tmpName ≠ baseName img)
    (hnd : (s.map ContainerInstance.instId).Nodup) :
    (orchestrate fm w img tmpName s).outcome = .Completed ∧
    ((orchestrate fm w img tmpName s).runtime.countP
      (fun j => j.name == baseName img)) = 1 ∧
    ((orchestrate fm w img tmpName s).runtime.countP
      (fun j => j.name == tmpName)) = 0 ∧
    (⟨freshId s, baseName img, true⟩ : ContainerInstance) ∈
      (orchestrate fm w img tmpName s).runtime := by
  have hp : pull fm img = .ok () := by simp [pull, hpull]
  have hr : runDetached fm img tmpName s =
      .ok (freshId s, ⟨freshId s, tmpName, true⟩ :: s) := by
    simp [runDetached, hrun, hfree]
  -- characterize the state after RetiringOld
  have hpw : ∀ j ∈ s,
      (!((listByName s (baseName img)).contains j.instId)) = !(j.name == baseName img) := by
    intro j hj
    by_cases hjb : (j.name == baseName img) = true
    · have hmem : j.instId ∈ listByName s (baseName img) :=
        List.mem_map.mpr ⟨j, List.mem_filter.mpr ⟨hj, hjb⟩, rfl⟩
      rw [contains_eq_true_of_mem hmem, hjb]
    · have hnm : j.instId ∉ listByName s (baseName img) := by
        intro hmem
        rcases List.mem_map.mp hmem with ⟨k, hk, hkid⟩
        have hkj : k = j :=
          List.inj_on_of_nodup_map hnd (List.mem_filter.mp hk).1 hj hkid
        have := (List.mem_filter.mp hk).2
        rw [hkj] at this
        exact hjb this
      rw [contains_eq_false_of_not_mem hnm]
      simp only [Bool.not_eq_true] at hjb
      rw [hjb]
  have h2 : retireOld fm (listByName (⟨freshId s, tmpName, true⟩ :: s) (baseName img))
      (⟨freshId s, tmpName, true⟩ :: s)
      = ⟨freshId s, tmpName, true⟩ :: s.filter (fun j => !(j.name == baseName img)) := by
    rw [listByName_cons_of_ne _ s _ hneq,
      retireOld_eq_filter fm _ _ hstop hrem, List.filter_cons]
    have hnew : (!((listByName s (baseName img)).contains
        (⟨freshId s, tmpName, true⟩ : ContainerInstance).instId)) = true := by
      rw [contains_eq_false_of_not_mem (freshId_not_mem_listByName s (baseName img))]
      rfl
    rw [hnew]
    simp only [if_true]
    exact congrArg _ (List.filter_congr hpw)
  have hfree' := List.any_eq_false.mp hfree
  -- the rename call succeeds and produces the promoted state
  have hanyf : (⟨freshId s, tmpName, true⟩ ::
      s.filter (fun j => !(j.name == baseName img))).any
      (fun j => j.name == baseName img && !(j.instId == freshId s)) = false := by
    refine List.any_eq_false.mpr fun j hj => ?_
    rcases List.mem_cons.mp hj with rfl | hj
    · have : (tmpName == baseName img) = false := by simpa using hneq
      simp [this]
    · have hfb : (j.name == baseName img) = false := by
        simpa using (List.mem_filter.mp hj).2
      simp [hfb]
  have hren' : rename fm (freshId s) (baseName img)
      (⟨freshId s, tmpName, true⟩ :: s.filter (fun j => !(j.name == baseName img)))
      = .ok (⟨freshId s, baseName img, true⟩ ::
          s.filter (fun j => !(j.name == baseName img))) := by
    have htail : (s.filter (fun j => !(j.name == baseName img))).map
        (fun j => if j.instId == freshId s then { j with name := baseName img } else j)
        = s.filter (fun j => !(j.name == baseName img)) := by
      have hid : ∀ j ∈ s.filter (fun j => !(j.name == baseName img)),
          (fun j => if j.instId == freshId s then { j with name := baseName img } else j) j
            = id j := by
        intro j hj
        have hlt := instId_lt_freshId s j (List.mem_filter.mp hj).1
        have : (j.instId == freshId s) = false := by
          simp only [beq_eq_false_iff_ne]
          omega
        simp [this]
      rw [List.map_congr_left hid, List.map_id]
    unfold rename
    rw [hren, hanyf]
    rw [if_neg (by simp), List.map_cons, htail]
    simp
  have heq : orchestrate fm w img tmpName s =
      ⟨.Completed, ⟨freshId s, baseName img, true⟩ ::
        s.filter (fun j => !(j.name == baseName img)), []⟩ := by
    simp only [orchestrate, hp, hr, h2, hren']
  rw [heq]
  refine ⟨rfl, ?_, ?_, List.mem_cons.mpr (Or.inl rfl)⟩
  · rw [List.countP_cons]
    have hz : (s.filter (fun j => !(j.name == baseName img))).countP
        (fun j => j.name == baseName img) = 0 := by
      refine List.countP_eq_zero.mpr fun j hj => ?_
      have hfb : (j.name == baseName img) = false := by
        simpa using (List.mem_filter.mp hj).2
      simp [hfb]
    rw [hz]
    simp
  · rw [List.countP_cons]
    have hz : (s.filter (fun j => !(j.name == baseName img))).countP
        (fun j => j.name == tmpName) = 0 := by
      refine List.countP_eq_zero.mpr fun j hj => ?_
      have := hfree' j (List.mem_filter.mp hj).1
      simp at this
      simp [this]
    rw [hz]
    have : ((⟨freshId s, baseName img, true⟩ : ContainerInstance).name == tmpName) = false := by
      simp only [beq_eq_false_iff_ne]
      exact fun h => hneq h.symm
    simp [this]

end Deploy

namespace Deploy

/-- Witness for C1: a fault-free run over a production instance `app` and an
unrelated instance `db` ends Completed with exactly one instance named `app`
and none named with the temporary name. -/
theorem successful_run_unique_base_witness :
    (orchestrate noFaults 5 "registry.example.com/team/app:v2" "app_tmp_1"
      sampleState).outcome = .Completed ∧
    ((orchestrate noFaults 5 "registry.example.com/team/app:v2" "app_tmp_1"
      sampleState).runtime.countP
        (fun j => j.name == baseName "registry.example.com/team/app:v2")) = 1 ∧
    ((orchestrate noFaults 5 "registry.example.com/team/app:v2" "app_tmp_1"
      sampleState).runtime.countP (fun j => j.name == "app_tmp_1")) = 0 ∧
    (⟨freshId sampleState, baseName "registry.example.com/team/app:v2", true⟩ :
      ContainerInstance) ∈
      (orchestrate noFaults 5 "registry.example.com/team/app:v2" "app_tmp_1"
        sampleState).runtime :=
  successful_run_unique_base noFaults 5 _ _ _ rfl rfl (fun _ => rfl) (fun _ => rfl)
    rfl (by decide) (by decide) (by decide)

end Deploy
